import Mathlib

/-!
Verification of the dataset state and view pipeline of the synapse-website
repository (`script.js`): the CSV parser, the data-quality calculator, and
the per-view pagination/filter state machine.

JavaScript strings are embedded as `List Char` (`Str`), with the JS string
operations used by the code (`split`, `trim`, `toLowerCase`, `includes`)
defined explicitly below with their JS semantics.  JS numbers are embedded
as `Nat`/`Int` for the integer-valued quantities and as `ℚ` for the
percentage metrics; `toFixed(1)` followed by `parseFloat` is embedded as
rounding to one decimal digit (`round1`).
-/

/-- JS strings, embedded as lists of characters. -/
abbrev Str := List Char

/-- Embedding of JS `s.split(sep)` for a one-character separator `sep`:
splitting never drops empty pieces, and splitting the empty string yields
`[""]`. -/
def splitChar (c : Char) : Str → List Str
  | [] => [[]]
  | x :: xs =>
    match splitChar c xs with
    | [] => [[]]
    | y :: ys => if x = c then [] :: y :: ys else (x :: y) :: ys

/-- Embedding of JS `s.trim()`: remove leading and trailing whitespace. -/
def trimChars (s : Str) : Str :=
  ((s.dropWhile Char.isWhitespace).reverse.dropWhile Char.isWhitespace).reverse

/-- Embedding of JS `s.toLowerCase()`. -/
def toLowerStr (s : Str) : Str :=
  s.map Char.toLower

/-- Prefix test used by `includesStr`. -/
def isPrefixBool : Str → Str → Bool
  | [], _ => true
  | _ :: _, [] => false
  | a :: as, b :: bs => a = b && isPrefixBool as bs

/-- Embedding of JS `s.includes(sub)`: `sub` occurs contiguously in `s`
(the empty string occurs in every string). -/
def includesStr (s sub : Str) : Bool :=
  match s with
  | [] => isPrefixBool sub []
  | _ :: xs => isPrefixBool sub s || includesStr xs sub

/-- A cell value: a string, or the explicit null marker (`null` in JS). -/
abbrev Value := Option Str

/-- A parsed row: a JS object, embedded as its ordered key/value entries
(insertion order of first assignment, as JS objects preserve it). -/
abbrev Row := List (Str × Value)

/-- Embedding of the JS assignment `row[k] = v` on an object: overwrite in
place if the key exists, otherwise append a new entry. -/
def objInsert (m : Row) (k : Str) (v : Value) : Row :=
  if m.any (fun p => p.1 = k) then
    m.map (fun p => if p.1 = k then (k, v) else p)
  else
    m ++ [(k, v)]

/-- Field value normalization of `parseCSV` (script.js:60-61): trim the
field; the empty string and the literal `"null"` are stored as null,
anything else is stored verbatim as a string. -/
def normalizeValue (v : Str) : Value :=
  let value := trimChars v
  if value = [] ∨ value = "null".data then none else some value

/-- Row construction of `parseCSV` (script.js:58-62): assign each header
its normalized field value, in header order. -/
def mkRow (headers : List Str) (values : List Str) : Row :=
  (headers.zip values).foldl (fun m hv => objInsert m hv.1 (normalizeValue hv.2)) []

/-- Column names of `parseCSV` (script.js:52): the header line split on
commas, each field trimmed and lower-cased. -/
def headerNames (headerLine : Str) : List Str :=
  (splitChar ',' headerLine).map (fun h => toLowerStr (trimChars h))

/-- One data line of `parseCSV` (script.js:55-64): split on commas; if the
field count equals the header count build a row, otherwise drop the line. -/
def parseLine (headers : List Str) (line : Str) : Option Row :=
  let values := splitChar ',' line
  if values.length = headers.length then some (mkRow headers values) else none

/-- Embedding of `parseCSV` (script.js:48-68): trim the text, split into
lines, read the header from the first line, and parse each remaining line,
silently dropping lines with a mismatched field count. -/
def parseCSV (text : Str) : List Row :=
  match splitChar '\n' (trimChars text) with
  | [] => []
  | headerLine :: rest =>
    let headers := headerNames headerLine
    rest.filterMap (parseLine headers)

/-- The null test of `calculateStats` and of the renderer
(`value === null || value === ''`). -/
def isNullish (v : Value) : Bool :=
  match v with
  | none => true
  | some s => s = []

/-- Embedding of JS `toFixed(1)` followed by `parseFloat`: round to one
decimal digit. -/
def round1 (q : ℚ) : ℚ :=
  (round (q * 10) : ℚ) / 10

/-- The raw-side counters accumulated by the `raw.forEach` loop of
`calculateStats` (script.js:76-95). -/
structure Counts where
  rawMissing : Nat
  rawNulls : Nat
  totalFields : Nat
  validFields : Nat
deriving DecidableEq

/-- One step of the inner `Object.values(row).forEach` loop of
`calculateStats` (script.js:83-94); the `Bool` component is the per-row
`hasNull` flag. -/
def scanCell (p : Counts × Bool) (v : Value) : Counts × Bool :=
  let c := { p.1 with totalFields := p.1.totalFields + 1 }
  if isNullish v then
    let c := { c with rawNulls := c.rawNulls + 1 }
    if p.2 then (c, p.2)
    else ({ c with rawMissing := c.rawMissing + 1 }, true)
  else ({ c with validFields := c.validFields + 1 }, p.2)

/-- One step of the outer `raw.forEach` loop of `calculateStats`
(script.js:81-95): scan a row's values with a fresh `hasNull` flag. -/
def scanRow (c : Counts) (row : Row) : Counts :=
  ((row.map Prod.snd).foldl scanCell (c, false)).1

/-- Per-side statistics of the result of `calculateStats`
(script.js:104-119). -/
structure SideStats where
  total : Nat
  missing : Nat
  nulls : Nat
  completeness : ℚ
  validity : ℚ
  consistency : ℚ

/-- The result record of `calculateStats` (script.js:103-122).  `removed`
is an integer because the JS subtraction can go negative. -/
structure DataStats where
  raw : SideStats
  cleaned : SideStats
  quality : ℚ
  removed : Int

/-- Embedding of `calculateStats` (script.js:71-123). -/
def calculateStats (raw cleaned : List Row) : DataStats :=
  let rawTotal := raw.length
  let cleanedTotal := cleaned.length
  let c := raw.foldl scanRow ⟨0, 0, 0, 0⟩
  let quality :=
    if rawTotal > 0 then round1 ((cleanedTotal : ℚ) / rawTotal * 100) else 0
  let completeness :=
    if c.totalFields > 0 then round1 ((c.validFields : ℚ) / c.totalFields * 100) else 0
  let validity :=
    if rawTotal > 0 then round1 (((rawTotal : ℚ) - c.rawMissing) / rawTotal * 100) else 0
  let consistency :=
    if rawTotal > 0 then
      round1 (((rawTotal : ℚ) - ((rawTotal : ℚ) - cleanedTotal)) / rawTotal * 100)
    else 0
  { raw := { total := rawTotal, missing := c.rawMissing, nulls := c.rawNulls,
             completeness := completeness, validity := validity,
             consistency := consistency },
    cleaned := { total := cleanedTotal, missing := 0, nulls := 0,
                 completeness := 100, validity := 100, consistency := 100 },
    quality := quality,
    removed := (rawTotal : Int) - (cleanedTotal : Int) }

/-- The two independently paginated views (`paginationState.raw` and
`paginationState.cleaned`). -/
inductive ViewId where
  | raw
  | cleaned
deriving DecidableEq

/-- Per-view pagination state (script.js:333-344). -/
structure ViewState where
  currentPage : Nat
  itemsPerPage : Nat
  filteredData : List Row
deriving DecidableEq

/-- The in-memory state the claims range over: the two source row
sequences (`rawData`, `cleanedData`) and the two view states.  The
UI-only globals (`currentDataset`, `dataStats`, the DOM) are outside the
claims; `dataStats` is covered by the pure `calculateStats`. -/
structure AppState where
  rawData : List Row
  cleanedData : List Row
  raw : ViewState
  cleaned : ViewState
deriving DecidableEq

/-- Source row sequence of a view (script.js:640). -/
def sourceOf (st : AppState) (v : ViewId) : List Row :=
  match v with
  | .raw => st.rawData
  | .cleaned => st.cleanedData

/-- The pagination state of a view. -/
def viewOf (st : AppState) (v : ViewId) : ViewState :=
  match v with
  | .raw => st.raw
  | .cleaned => st.cleaned

/-- Replace the pagination state of one view. -/
def updateView (st : AppState) (v : ViewId) (f : ViewState → ViewState) : AppState :=
  match v with
  | .raw => { st with raw := f st.raw }
  | .cleaned => { st with cleaned := f st.cleaned }

/-- The match test of `filterData` (script.js:645-650): some field value
is non-null and its lower-cased string form contains the search term. -/
def rowMatches (searchTerm : Str) (row : Row) : Bool :=
  (row.map Prod.snd).any fun v =>
    match v with
    | none => false
    | some s => includesStr (toLowerStr s) searchTerm

/-- Embedding of `filterData` (script.js:639-655): reset `filteredData`
from the view's source rows (all of them for an empty term, else those
matching), and set `currentPage` to 1. -/
def filterData (st : AppState) (v : ViewId) (searchTerm : Str) : AppState :=
  let sourceData := sourceOf st v
  let newFiltered :=
    if searchTerm = [] then sourceData
    else sourceData.filter (rowMatches searchTerm)
  updateView st v (fun vs => { vs with filteredData := newFiltered, currentPage := 1 })

/-- Embedding of the search input handlers (script.js:629-635): the raw
input value is lower-cased and passed to `filterData`. -/
def search (st : AppState) (v : ViewId) (term : Str) : AppState :=
  filterData st v (toLowerStr term)

/-- Nat ceiling division: the value of JS `Math.ceil(a / b)` for natural
`a` and positive natural `b`. -/
def ceilDiv (a b : Nat) : Nat :=
  (a + b - 1) / b

/-- The `maxPage` computation of the next-page handlers (script.js:668,
684): `Math.ceil(filteredData.length / itemsPerPage)`. -/
def maxPage (vs : ViewState) : Nat :=
  ceilDiv vs.filteredData.length vs.itemsPerPage

/-- Embedding of the next-page click handlers (script.js:667-673,
683-689). -/
def pageForward (vs : ViewState) : ViewState :=
  if vs.currentPage < maxPage vs then { vs with currentPage := vs.currentPage + 1 }
  else vs

/-- Embedding of the previous-page click handlers (script.js:660-665,
676-681). -/
def pageBack (vs : ViewState) : ViewState :=
  if vs.currentPage > 1 then { vs with currentPage := vs.currentPage - 1 }
  else vs

/-- Embedding of the page-size change handlers (script.js:581-591):
set `itemsPerPage`, reset `currentPage` to 1. -/
def changePageSize (vs : ViewState) (n : Nat) : ViewState :=
  { vs with itemsPerPage := n, currentPage := 1 }

/-- `pageForward` on the state of one view. -/
def pageForwardA (st : AppState) (v : ViewId) : AppState :=
  updateView st v pageForward

/-- `pageBack` on the state of one view. -/
def pageBackA (st : AppState) (v : ViewId) : AppState :=
  updateView st v pageBack

/-- `changePageSize` on the state of one view. -/
def changePageSizeA (st : AppState) (v : ViewId) (n : Nat) : AppState :=
  updateView st v (fun vs => changePageSize vs n)

/-- The result of the raw/cleaned fetches of one `loadDataset` call:
`none` models a fetch (or body read) that throws, `some text` the fetched
file content. -/
structure FetchEnv where
  rawText : Option Str
  cleanedText : Option Str
deriving DecidableEq

/-- Embedding of `loadDataset` (script.js:243-287).  The body runs inside
one `try`: the raw file is fetched and parsed into `rawData` first; only
then is the cleaned file fetched, parsed into `cleanedData`, and the
pagination state of both views reset.  An error is caught at the top
level (alert only), leaving whatever assignments already happened in
place. -/
def loadDataset (env : FetchEnv) (st : AppState) : AppState :=
  match env.rawText with
  | none => st
  | some rawText =>
    let st := { st with rawData := parseCSV rawText }
    match env.cleanedText with
    | none => st
    | some cleanedText =>
      let st := { st with cleanedData := parseCSV cleanedText }
      { st with
        raw := { st.raw with filteredData := st.rawData, currentPage := 1 },
        cleaned := { st.cleaned with filteredData := st.cleanedData, currentPage := 1 } }

/-- The initial in-memory state (script.js:38-45, 333-344): empty row
sequences, both views on page 1 with 50 items per page and an empty
filtered copy. -/
def initialState : AppState :=
  { rawData := [], cleanedData := [],
    raw := { currentPage := 1, itemsPerPage := 50, filteredData := [] },
    cleaned := { currentPage := 1, itemsPerPage := 50, filteredData := [] } }

/-- The `currentPage` bound required of a view state (spec section 3). -/
def pageInvariant (vs : ViewState) : Prop :=
  1 ≤ vs.currentPage ∧ vs.currentPage ≤ max 1 (maxPage vs)

instance (vs : ViewState) : Decidable (pageInvariant vs) := by
  unfold pageInvariant; infer_instance

/-- The `currentPage` bound on both views. -/
def appInvariant (st : AppState) : Prop :=
  pageInvariant st.raw ∧ pageInvariant st.cleaned

instance (st : AppState) : Decidable (appInvariant st) := by
  unfold appInvariant; infer_instance

/-- The search predicate as the spec states it: some field of the row is
non-null and, compared case-insensitively, contains the lower-cased term
as a substring. -/
def specMatches (term : Str) (row : Row) : Bool :=
  row.any fun kv =>
    match kv.2 with
    | none => false
    | some s => includesStr (toLowerStr s) (toLowerStr term)

lemma rowMatches_toLower (term : Str) (row : Row) :
    rowMatches (toLowerStr term) row = specMatches term row := by
  rw [rowMatches, specMatches]
  induction row with
  | nil => rfl
  | cons kv tl ih => simpa using congrArg (fun b =>
      (match kv.2 with
       | none => false
       | some s => includesStr (toLowerStr s) (toLowerStr term)) || b) ih

lemma toLowerStr_eq_nil_iff (s : Str) : toLowerStr s = [] ↔ s = [] := by
  simp [toLowerStr]

lemma foldl_scanCell (vs : List Value) (c : Counts) (b : Bool) :
    vs.foldl scanCell (c, b) =
      ({ rawMissing := c.rawMissing + (if b then 0 else if vs.any isNullish then 1 else 0),
         rawNulls := c.rawNulls + vs.countP isNullish,
         totalFields := c.totalFields + vs.length,
         validFields := c.validFields + vs.countP (fun v => !(isNullish v)) },
       b || vs.any isNullish) := by
  induction vs generalizing c b with
  | nil => simp
  | cons v tl ih =>
    rw [List.foldl_cons, scanCell]
    rcases hv : isNullish v with _ | _ <;> rcases b with _ | _ <;>
      simp [hv, ih, List.countP_cons, Counts.mk.injEq] <;> omega

lemma foldl_scanRow (rows : List Row) (c : Counts) :
    rows.foldl scanRow c =
      { rawMissing := c.rawMissing + rows.countP (fun r => (r.map Prod.snd).any isNullish),
        rawNulls := c.rawNulls + (rows.map (fun r => (r.map Prod.snd).countP isNullish)).sum,
        totalFields := c.totalFields + (rows.map (fun r => r.length)).sum,
        validFields :=
          c.validFields + (rows.map (fun r => (r.map Prod.snd).countP (fun v => !(isNullish v)))).sum } := by
  induction rows generalizing c with
  | nil => simp
  | cons r tl ih =>
    rw [List.foldl_cons, scanRow, foldl_scanCell, ih]
    rcases h : (r.map Prod.snd).any isNullish with _ | _ <;>
      simp [h, List.countP_cons, Counts.mk.injEq, List.length_map] <;> omega

lemma filterMap_parseLine (hs : List Str) (ls : List Str) :
    ls.filterMap (parseLine hs) =
      (ls.filter (fun l => (splitChar ',' l).length = hs.length)).map
        (fun l => mkRow hs (splitChar ',' l)) := by
  induction ls with
  | nil => rfl
  | cons l tl ih =>
    by_cases h : (splitChar ',' l).length = hs.length <;>
      simp [parseLine, h, ih]

lemma foldl_objInsert_fresh (l : List (Str × Str)) (acc : Row) :
    (l.map Prod.fst).Nodup →
    (∀ q ∈ acc, ∀ p ∈ l, q.1 ≠ p.1) →
    l.foldl (fun m hv => objInsert m hv.1 (normalizeValue hv.2)) acc =
      acc ++ l.map (fun hv => (hv.1, normalizeValue hv.2)) := by
  induction l generalizing acc with
  | nil => intro _ _; simp
  | cons p tl ih =>
    intro hnd hfresh
    have hnotin : acc.any (fun q => q.1 = p.1) = false := by
      simp only [List.any_eq_false]
      intro q hq
      simpa using hfresh q hq p (by simp)
    rw [List.foldl_cons, objInsert, hnotin]
    simp only [Bool.false_eq_true, if_false]
    rw [ih]
    · simp
    · exact (List.nodup_cons.mp (by simpa using hnd)).2
    · intro q hq p' hp'
      rcases List.mem_append.mp hq with hq | hq
      · exact hfresh q hq p' (by simp [hp'])
      · have hq' : q = (p.1, normalizeValue p.2) := by simpa using hq
        have : p.1 ∉ tl.map Prod.fst := (List.nodup_cons.mp (by simpa using hnd)).1
        intro hcontr
        exact this (by
          rw [hq'] at hcontr
          exact hcontr ▸ List.mem_map_of_mem Prod.fst hp')

lemma mkRow_nodup (hs vs : List Str) (hnd : hs.Nodup) (hlen : hs.length = vs.length) :
    mkRow hs vs = hs.zip (vs.map normalizeValue) := by
  rw [mkRow, foldl_objInsert_fresh]
  · rw [List.nil_append, List.zip_map_right]
    exact List.map_congr_left (fun p _ => rfl)
  · rw [List.map_fst_zip hs vs (le_of_eq hlen)]
    exact hnd
  · intro q hq
    simp at hq

lemma ceilDiv_eq_ceil (a b : Nat) (hb : 0 < b) :
    ceilDiv a b = ⌈(a : ℚ) / (b : ℚ)⌉₊ := by
  have hbq : (0 : ℚ) < (b : ℚ) := by exact_mod_cast hb
  rcases a with _ | n
  · simp [ceilDiv, Nat.div_eq_of_lt (Nat.sub_lt hb Nat.one_pos)]
  · have h1 : ceilDiv (n + 1) b = n / b + 1 := by
      unfold ceilDiv
      rw [Nat.succ_add_sub_one, Nat.add_div_right n hb]
    rw [h1]
    symm
    rw [Nat.ceil_eq_iff (Nat.succ_ne_zero _)]
    have hmod := Nat.div_add_mod n b
    have hmodlt := Nat.mod_lt n hb
    constructor
    · rw [Nat.succ_sub_one, lt_div_iff hbq]
      have : n / b * b ≤ n := Nat.div_mul_le_self n b
      have hcast : ((n / b : ℕ) : ℚ) * (b : ℚ) ≤ (n : ℚ) := by exact_mod_cast this
      have : ((n : ℚ)) < ((n + 1 : ℕ) : ℚ) := by exact_mod_cast Nat.lt_succ_self n
      push_cast at hcast ⊢
      linarith
    · rw [div_le_iff hbq]
      have hnat : n + 1 ≤ (n / b + 1) * b := by
        have := Nat.div_add_mod n b
        nlinarith [hmodlt]
      exact_mod_cast hnat

lemma calculateStats_quality (raw cleaned : List Row) (h : 0 < raw.length) :
    (calculateStats raw cleaned).quality =
      round1 ((cleaned.length : ℚ) / (raw.length : ℚ) * 100) := by
  simp [calculateStats, h]

/-- C5: `parseCSV` drops, silently, every data line whose comma-split
field count differs from the header field count, and produces one row for
exactly each matching line, in input order; parsing `"a,b\n1,2,3"` and a
header-only input both yield the empty sequence. -/
theorem claim_C5_strict_arity :
    parseCSV "a,b\n1,2,3".data = []
    ∧ parseCSV "a,b".data = []
    ∧ ∀ (text headerLine : Str) (rest : List Str),
        splitChar '\n' (trimChars text) = headerLine :: rest →
        parseCSV text =
          (rest.filter
            (fun l => (splitChar ',' l).length = (headerNames headerLine).length)).map
            (fun l => mkRow (headerNames headerLine) (splitChar ',' l)) := by
  refine ⟨by decide, by decide, ?_⟩
  intro text headerLine rest h
  simp only [parseCSV, h]
  exact filterMap_parseLine _ _

/-- Witness for C5 at the concrete input `"a,b\n1,2\nx"`: the matching
line is kept as a row and the short line `"x"` is dropped. -/
theorem claim_C5_strict_arity_witness :
    splitChar '\n' (trimChars "a,b\n1,2\nx".data) = ["a,b".data, "1,2".data, "x".data]
    ∧ parseCSV "a,b\n1,2\nx".data =
        ((["1,2".data, "x".data]).filter
          (fun l => (splitChar ',' l).length = (headerNames "a,b".data).length)).map
          (fun l => mkRow (headerNames "a,b".data) (splitChar ',' l)) :=
  ⟨by decide,
   claim_C5_strict_arity.2.2 "a,b\n1,2\nx".data "a,b".data
     ["1,2".data, "x".data] (by decide)⟩

/-- C6: for every kept line `parseCSV` trims each field; a trimmed value
equal to `""` or to the literal `"null"` is stored as null and any other
trimmed value is stored verbatim; column names are the header fields
trimmed and lower-cased; and `parse("a,b\n1,\n2,x")` yields
`[{a:"1",b:null},{a:"2",b:"x"}]`. -/
theorem claim_C6_value_normalization :
    parseCSV "a,b\n1,\n2,x".data =
      [[("a".data, some "1".data), ("b".data, none)],
       [("a".data, some "2".data), ("b".data, some "x".data)]]
    ∧ (∀ hs vs : List Str, hs.Nodup → hs.length = vs.length →
        mkRow hs vs = hs.zip (vs.map normalizeValue))
    ∧ (∀ v : Str, trimChars v = [] → normalizeValue v = none)
    ∧ (∀ v : Str, trimChars v = "null".data → normalizeValue v = none)
    ∧ (∀ v : Str, trimChars v ≠ [] → trimChars v ≠ "null".data →
        normalizeValue v = some (trimChars v))
    ∧ ∀ headerLine : Str,
        headerNames headerLine =
          (splitChar ',' headerLine).map (fun h => toLowerStr (trimChars h)) := by
  refine ⟨by decide, mkRow_nodup, ?_, ?_, ?_, fun _ => rfl⟩
  · intro v h
    simp [normalizeValue, h]
  · intro v h
    simp [normalizeValue, h]
  · intro v h1 h2
    simp [normalizeValue, h1, h2]

/-- Witness for C6 at concrete fields: trimming, the two null spellings,
and a verbatim value. -/
theorem claim_C6_value_normalization_witness :
    mkRow ["a".data, "b".data] ["1".data, "x".data] =
      [("a".data, some "1".data), ("b".data, some "x".data)]
    ∧ normalizeValue "  ".data = none
    ∧ normalizeValue " null ".data = none
    ∧ normalizeValue " 7 ".data = some "7".data :=
  ⟨(claim_C6_value_normalization.2.1 ["a".data, "b".data] ["1".data, "x".data]
      (by decide) (by decide)).trans (by decide),
   claim_C6_value_normalization.2.2.1 "  ".data (by decide),
   claim_C6_value_normalization.2.2.2.1 " null ".data (by decide),
   claim_C6_value_normalization.2.2.2.2.1 " 7 ".data (by decide) (by decide)⟩

/-- C7: `calculateStats` returns `rawMissing` = number of raw rows with at
least one null/empty field (counted once per row), `rawNulls` = total
count of null/empty cells, `completeness` = valid cells over total cells
times 100 (0 when there are no cells) and `validity` =
`(rawTotal - rawMissing) / rawTotal * 100` (0 when raw is empty), each
percentage rounded to one decimal digit. -/
theorem claim_C7_raw_metrics :
    ∀ raw cleaned : List Row,
      (calculateStats raw cleaned).raw.missing =
        (raw.filter (fun r => (r.map Prod.snd).any isNullish)).length
      ∧ (calculateStats raw cleaned).raw.nulls =
          (raw.map (fun r => (r.map Prod.snd).countP isNullish)).sum
      ∧ (calculateStats raw cleaned).raw.completeness =
          (if 0 < (raw.map (fun r => r.length)).sum then
            round1
              (((raw.map (fun r => (r.map Prod.snd).countP (fun v => !(isNullish v)))).sum : ℚ)
                / ((raw.map (fun r => r.length)).sum : ℚ) * 100)
          else 0)
      ∧ (calculateStats raw cleaned).raw.validity =
          (if 0 < raw.length then
            round1
              (((raw.length : ℚ)
                  - ((raw.filter (fun r => (r.map Prod.snd).any isNullish)).length : ℚ))
                / (raw.length : ℚ) * 100)
          else 0) := by
  intro raw cleaned
  have hc := foldl_scanRow raw ⟨0, 0, 0, 0⟩
  have hm : raw.countP (fun r => (r.map Prod.snd).any isNullish) =
      (raw.filter (fun r => (r.map Prod.snd).any isNullish)).length :=
    (List.countP_eq_length_filter _ _).symm ▸ rfl
  refine ⟨?_, ?_, ?_, ?_⟩ <;>
    simp [calculateStats, hc, List.countP_eq_length_filter, Function.comp_def]

/-- The quality-example rows of the spec: raw `[{a:1},{a:null}]`. -/
def exRawQ : List Row := [[("a".data, some "1".data)], [("a".data, none)]]

/-- The quality-example rows of the spec: cleaned `[{a:1}]`. -/
def exCleanedQ : List Row := [[("a".data, some "1".data)]]

/-- C8: `calculateStats` satisfies `removed = raw.total - cleaned.total`
and `quality = cleaned.total / raw.total * 100` rounded to one decimal
digit (0 when raw is empty); its cleaned-side metrics are the constants
0/0/100/100/100 regardless of the cleaned rows; and on the spec's example
pair it returns rawMissing 1, quality 50, removed 1, completeness 50,
validity 50. -/
theorem claim_C8_derived_fields_and_constants :
    (∀ raw cleaned : List Row,
      (calculateStats raw cleaned).removed =
        ((calculateStats raw cleaned).raw.total : Int)
          - ((calculateStats raw cleaned).cleaned.total : Int)
      ∧ (calculateStats raw cleaned).quality =
          (if 0 < (calculateStats raw cleaned).raw.total then
            round1 (((calculateStats raw cleaned).cleaned.total : ℚ)
              / ((calculateStats raw cleaned).raw.total : ℚ) * 100)
          else 0)
      ∧ (calculateStats raw cleaned).cleaned.missing = 0
      ∧ (calculateStats raw cleaned).cleaned.nulls = 0
      ∧ (calculateStats raw cleaned).cleaned.completeness = 100
      ∧ (calculateStats raw cleaned).cleaned.validity = 100
      ∧ (calculateStats raw cleaned).cleaned.consistency = 100)
    ∧ (calculateStats exRawQ exCleanedQ).raw.missing = 1
    ∧ (calculateStats exRawQ exCleanedQ).quality = 50
    ∧ (calculateStats exRawQ exCleanedQ).removed = 1
    ∧ (calculateStats exRawQ exCleanedQ).raw.completeness = 50
    ∧ (calculateStats exRawQ exCleanedQ).raw.validity = 50 := by
  have hfold : exRawQ.foldl scanRow ⟨0, 0, 0, 0⟩ = ⟨1, 1, 2, 1⟩ := by decide
  refine ⟨fun raw cleaned => ⟨rfl, by simp [calculateStats], rfl, rfl, rfl, rfl, rfl⟩,
    by decide, ?_, by decide, ?_, ?_⟩
  · have hq : (calculateStats exRawQ exCleanedQ).quality = round1 ((1 : ℚ) / 2 * 100) := by
      simp [calculateStats, exRawQ, exCleanedQ]
    rw [hq, round1, round_eq]
    norm_num
  · have hq : (calculateStats exRawQ exCleanedQ).raw.completeness =
        round1 ((1 : ℚ) / 2 * 100) := by
      simp [calculateStats, hfold]
    rw [hq, round1, round_eq]
    norm_num
  · have hlen : exRawQ.length = 2 := by decide
    have hq : (calculateStats exRawQ exCleanedQ).raw.validity =
        round1 (((2 : ℚ) - 1) / 2 * 100) := by
      simp [calculateStats, hfold, hlen]
    rw [hq, round1, round_eq]
    norm_num

/-- C9: the raw-side consistency percentage of `calculateStats` is always
numerically equal to the quality percentage, both being 0 when raw is
empty, since `(rawTotal - (rawTotal - cleanedTotal)) / rawTotal`
simplifies to `cleanedTotal / rawTotal`. -/
theorem claim_C9_consistency_equals_quality :
    ∀ raw cleaned : List Row,
      (calculateStats raw cleaned).raw.consistency = (calculateStats raw cleaned).quality
      ∧ (raw.length = 0 →
          (calculateStats raw cleaned).raw.consistency = 0
          ∧ (calculateStats raw cleaned).quality = 0) := by
  intro raw cleaned
  constructor
  · by_cases h : 0 < raw.length
    · simp only [calculateStats, h, if_true, gt_iff_lt]
      congr 1
      ring
    · simp [calculateStats, h]
  · intro h
    simp [calculateStats, h]

/-- Witness for C9 at the empty raw sequence: both percentages are 0. -/
theorem claim_C9_consistency_equals_quality_witness :
    (calculateStats [] [[]]).raw.consistency = 0 ∧ (calculateStats [] [[]]).quality = 0 :=
  (claim_C9_consistency_equals_quality [] [[]]).2 rfl


lemma viewOf_updateView (st : AppState) (v : ViewId) (f : ViewState → ViewState) :
    viewOf (updateView st v f) v = f (viewOf st v) := by
  cases v <;> rfl

/-- C2: for every view and term, `search` sets `filteredData` to the full
source sequence when the term is empty, and otherwise to exactly the
order-preserving subsequence of source rows with at least one non-null
field containing the lower-cased term case-insensitively; `currentPage`
is set to 1 in both cases. -/
theorem claim_C2_search_filter :
    ∀ (st : AppState) (v : ViewId) (term : Str),
      (viewOf (search st v term) v).currentPage = 1
      ∧ (term = [] → (viewOf (search st v term) v).filteredData = sourceOf st v)
      ∧ (term ≠ [] →
          (viewOf (search st v term) v).filteredData =
            (sourceOf st v).filter (specMatches term))
      ∧ ((viewOf (search st v term) v).filteredData).Sublist (sourceOf st v) := by
  intro st v term
  have h1 : viewOf (search st v term) v =
      { viewOf st v with
        filteredData :=
          if toLowerStr term = [] then sourceOf st v
          else (sourceOf st v).filter (rowMatches (toLowerStr term)),
        currentPage := 1 } := by
    rw [search, filterData, viewOf_updateView]
  rw [h1]
  refine ⟨rfl, ?_, ?_, ?_⟩
  · intro h
    simp [h, toLowerStr]
  · intro h
    rw [if_neg (fun hc => h ((toLowerStr_eq_nil_iff term).mp hc))]
    exact List.filter_congr (fun row _ => rowMatches_toLower term row)
  · by_cases h : toLowerStr term = []
    · simp [h]
    · simp only [h, if_false]
      exact List.filter_sublist _

/-- Witness for C2: an empty and a non-empty search on the initial state. -/
theorem claim_C2_search_filter_witness :
    (viewOf (search initialState ViewId.raw []) ViewId.raw).filteredData =
      sourceOf initialState ViewId.raw
    ∧ (viewOf (search initialState ViewId.raw "x".data) ViewId.raw).filteredData =
        (sourceOf initialState ViewId.raw).filter (specMatches "x".data) :=
  ⟨(claim_C2_search_filter initialState ViewId.raw []).2.1 rfl,
   (claim_C2_search_filter initialState ViewId.raw "x".data).2.2.1 (by decide)⟩

/-- C3: for every view state with a positive page size, `pageForward`
increments `currentPage` by 1 exactly when
`currentPage < ceil(filteredData.length / itemsPerPage)` and is a no-op
otherwise, and `pageBack` decrements by 1 exactly when `currentPage > 1`
and is a no-op otherwise; with 5 filtered rows and page size 2 the
maximum page is 3, `pageForward` from page 3 is a no-op and `pageBack`
from page 1 is a no-op. -/
theorem claim_C3_page_navigation :
    (∀ vs : ViewState, 0 < vs.itemsPerPage →
      (vs.currentPage < ⌈(vs.filteredData.length : ℚ) / (vs.itemsPerPage : ℚ)⌉₊ →
          pageForward vs = { vs with currentPage := vs.currentPage + 1 })
      ∧ (¬ vs.currentPage < ⌈(vs.filteredData.length : ℚ) / (vs.itemsPerPage : ℚ)⌉₊ →
          pageForward vs = vs)
      ∧ (1 < vs.currentPage →
          pageBack vs = { vs with currentPage := vs.currentPage - 1 })
      ∧ (¬ 1 < vs.currentPage → pageBack vs = vs))
    ∧ maxPage { currentPage := 3, itemsPerPage := 2, filteredData := List.replicate 5 [] } = 3
    ∧ pageForward { currentPage := 3, itemsPerPage := 2, filteredData := List.replicate 5 [] } =
        { currentPage := 3, itemsPerPage := 2, filteredData := List.replicate 5 [] }
    ∧ pageBack { currentPage := 1, itemsPerPage := 2, filteredData := List.replicate 5 ([] : Row) } =
        { currentPage := 1, itemsPerPage := 2, filteredData := List.replicate 5 [] } := by
  refine ⟨?_, by decide, by decide, by decide⟩
  intro vs hipp
  have hm : maxPage vs = ⌈(vs.filteredData.length : ℚ) / (vs.itemsPerPage : ℚ)⌉₊ := by
    rw [maxPage, ceilDiv_eq_ceil _ _ hipp]
  refine ⟨?_, ?_, ?_, ?_⟩
  · intro h
    rw [← hm] at h
    simp [pageForward, h]
  · intro h
    rw [← hm] at h
    simp [pageForward, h]
  · intro h
    simp [pageBack, h]
  · intro h
    simp [pageBack, h]

/-- Witness for C3 at page size 2: `pageBack` from page 1 is a no-op. -/
theorem claim_C3_page_navigation_witness :
    0 < (2 : Nat)
    ∧ pageBack { currentPage := 1, itemsPerPage := 2, filteredData := [] } =
        { currentPage := 1, itemsPerPage := 2, filteredData := [] } :=
  ⟨by decide,
   (claim_C3_page_navigation.1
      { currentPage := 1, itemsPerPage := 2, filteredData := [] }
      (by decide)).2.2.2 (by decide)⟩

lemma pageInvariant_of_page_one (vs : ViewState) (h : vs.currentPage = 1) :
    pageInvariant vs := by
  refine ⟨le_of_eq h.symm, ?_⟩
  rw [h]
  exact le_max_left 1 (maxPage vs)

lemma pageInvariant_pageForward (vs : ViewState) (h : pageInvariant vs) :
    pageInvariant (pageForward vs) := by
  obtain ⟨h1, h2⟩ := h
  rw [pageForward]
  by_cases hlt : vs.currentPage < maxPage vs
  · rw [if_pos hlt]
    have hmax : maxPage { vs with currentPage := vs.currentPage + 1 } = maxPage vs := rfl
    refine ⟨?_, ?_⟩
    · show 1 ≤ vs.currentPage + 1
      omega
    · show vs.currentPage + 1 ≤ max 1 (maxPage { vs with currentPage := vs.currentPage + 1 })
      rw [hmax]
      have h3 := le_max_right 1 (maxPage vs)
      omega
  · rw [if_neg hlt]
    exact ⟨h1, h2⟩

lemma pageInvariant_pageBack (vs : ViewState) (h : pageInvariant vs) :
    pageInvariant (pageBack vs) := by
  obtain ⟨h1, h2⟩ := h
  rw [pageBack]
  by_cases hgt : vs.currentPage > 1
  · rw [if_pos hgt]
    have hmax : maxPage { vs with currentPage := vs.currentPage - 1 } = maxPage vs := rfl
    refine ⟨?_, ?_⟩
    · show 1 ≤ vs.currentPage - 1
      omega
    · show vs.currentPage - 1 ≤ max 1 (maxPage { vs with currentPage := vs.currentPage - 1 })
      rw [hmax]
      omega
  · rw [if_neg hgt]
    exact ⟨h1, h2⟩

lemma appInvariant_updateView_abs (st : AppState) (v : ViewId) (f : ViewState → ViewState)
    (h : appInvariant st) (hf : ∀ vs, pageInvariant vs → pageInvariant (f vs)) :
    appInvariant (updateView st v f) := by
  cases v
  · exact ⟨hf st.raw h.1, h.2⟩
  · exact ⟨h.1, hf st.cleaned h.2⟩

/-- C4: the invariant
`1 ≤ currentPage ≤ max 1 (ceil(filteredData.length / itemsPerPage))`
holds for both views in the initial state and is preserved by dataset
load, search, page-size change, page forward and page back. -/
theorem claim_C4_page_invariant :
    appInvariant initialState
    ∧ ∀ st : AppState, appInvariant st →
        (∀ env : FetchEnv, appInvariant (loadDataset env st))
        ∧ (∀ (v : ViewId) (term : Str), appInvariant (search st v term))
        ∧ (∀ (v : ViewId) (n : Nat), appInvariant (changePageSizeA st v n))
        ∧ (∀ v : ViewId, appInvariant (pageForwardA st v))
        ∧ (∀ v : ViewId, appInvariant (pageBackA st v)) := by
  refine ⟨by decide, ?_⟩
  intro st h
  refine ⟨?_, ?_, ?_, ?_, ?_⟩
  · intro env
    rcases env with ⟨rt, ct⟩
    rcases rt with _ | rt
    · exact h
    · rcases ct with _ | ct
      · exact h
      · exact ⟨pageInvariant_of_page_one _ rfl, pageInvariant_of_page_one _ rfl⟩
  · intro v term
    exact appInvariant_updateView_abs st v _ h
      (fun vs _ => pageInvariant_of_page_one _ rfl)
  · intro v n
    exact appInvariant_updateView_abs st v _ h
      (fun vs _ => pageInvariant_of_page_one _ rfl)
  · intro v
    exact appInvariant_updateView_abs st v _ h pageInvariant_pageForward
  · intro v
    exact appInvariant_updateView_abs st v _ h pageInvariant_pageBack

/-- Witness for C4: starting from the initial state, one page-forward step
keeps the invariant. -/
theorem claim_C4_page_invariant_witness :
    appInvariant initialState
    ∧ appInvariant (pageForwardA initialState ViewId.raw) :=
  ⟨by decide,
   (claim_C4_page_invariant.2 initialState (by decide)).2.2.2.1 ViewId.raw⟩

/-- Counterexample to C1 as stated: a load whose cleaned-side fetch fails
(so the load operation throws and is caught) still replaces `rawData`,
so the raw and cleaned sequences are not both left in their prior state. -/
theorem claim_C1_load_atomicity_counterexample :
    ({ rawText := some "a\n1".data, cleanedText := none } : FetchEnv).cleanedText = none
    ∧ (loadDataset { rawText := some "a\n1".data, cleanedText := none } initialState).rawData
        ≠ initialState.rawData := by
  exact ⟨rfl, by decide⟩

/-- C1 amended: a load failing on the raw-side fetch leaves the whole
state unchanged, but a load failing on the cleaned-side fetch has already
committed the parsed raw text to `rawData` (with `cleanedData` and both
view states untouched) — the raw+cleaned swap is not atomic. -/
theorem claim_C1_load_atomicity :
    ∀ (st : AppState) (env : FetchEnv),
      (env.rawText = none → loadDataset env st = st)
      ∧ (∀ rt : Str, env.rawText = some rt → env.cleanedText = none →
          loadDataset env st = { st with rawData := parseCSV rt }) := by
  intro st env
  constructor
  · intro h
    simp [loadDataset, h]
  · intro rt h1 h2
    simp [loadDataset, h1, h2]

/-- Witness for C1 amended: a raw-side failure changes nothing; a
cleaned-side failure commits the parsed raw rows only. -/
theorem claim_C1_load_atomicity_witness :
    loadDataset { rawText := none, cleanedText := none } initialState = initialState
    ∧ loadDataset { rawText := some "a\n1".data, cleanedText := none } initialState =
        { initialState with rawData := parseCSV "a\n1".data } :=
  ⟨(claim_C1_load_atomicity initialState { rawText := none, cleanedText := none }).1 rfl,
   (claim_C1_load_atomicity initialState
      { rawText := some "a\n1".data, cleanedText := none }).2 "a\n1".data rfl rfl⟩

/-- A sample row used in the C10 instances. -/
def sampleRow : Row := [("a".data, some "x".data)]

/-- Counterexample to C10 as stated: with 2001 raw rows and 2002 cleaned
rows the cleaned sequence is longer and raw is non-empty, yet the
returned quality (2002/2001*100 rounded to one decimal digit) is exactly
100, not above it. -/
theorem claim_C10_no_clamping_counterexample :
    (List.replicate 2001 sampleRow).length < (List.replicate 2002 sampleRow).length
    ∧ List.replicate 2001 sampleRow ≠ []
    ∧ ¬ 100 <
        (calculateStats (List.replicate 2001 sampleRow) (List.replicate 2002 sampleRow)).quality := by
  refine ⟨?_, ?_, ?_⟩
  · rw [List.length_replicate, List.length_replicate]
    norm_num
  · intro hcontra
    have h := congrArg List.length hcontra
    rw [List.length_replicate] at h
    simp at h
  · have hpos : 0 < (List.replicate 2001 sampleRow).length := by
      rw [List.length_replicate]
      norm_num
    rw [calculateStats_quality _ _ hpos, List.length_replicate, List.length_replicate]
    norm_num [round1, round_eq]

/-- C10 amended: `calculateStats` applies no clamping to `removed`, which
is negative whenever the cleaned sequence is longer than the raw one; the
returned quality can exceed 100 (with one raw row and two cleaned rows it
is 200) but does not do so for every such pair, since the one-decimal
rounding can bring it back down to exactly 100. -/
theorem claim_C10_no_clamping :
    (∀ raw cleaned : List Row, raw.length < cleaned.length →
      (calculateStats raw cleaned).removed < 0)
    ∧ 100 < (calculateStats [sampleRow] [sampleRow, sampleRow]).quality := by
  constructor
  · intro raw cleaned hlt
    have hr : (calculateStats raw cleaned).removed =
        (raw.length : Int) - (cleaned.length : Int) := rfl
    rw [hr]
    omega
  · have hpos : 0 < ([sampleRow] : List Row).length := by decide
    rw [calculateStats_quality _ _ hpos]
    norm_num [round1, round_eq]

/-- Witness for C10 amended: one raw row against two cleaned rows gives a
negative `removed`. -/
theorem claim_C10_no_clamping_witness :
    [sampleRow].length < [sampleRow, sampleRow].length
    ∧ (calculateStats [sampleRow] [sampleRow, sampleRow]).removed < 0 :=
  ⟨by decide,
   claim_C10_no_clamping.1 [sampleRow] [sampleRow, sampleRow] (by decide)⟩
